import Mathlib

/-!
Verification of the markdown transformation pipeline of the
fortress-rollback developer-tooling repository
(scripts/sync-wiki.py, scripts/check-links.py,
scripts/check-wiki-consistency.py).

Documents are modelled as `List Char`; offsets are `Nat`.  Relative
POSIX-style paths (the only kind the scripts manipulate) are modelled as
`List Char` with components separated by a slash, mirroring the scripts'
use of `PurePosixPath` on relative inputs.  Python `while` loops that
move an index forward are modelled by structural recursion on a fuel
argument that the wrappers instantiate with `length + 1`, which is
sufficient because every iteration advances the index by at least one.
Each regular expression used by the scripts is hand-compiled to an
explicit matcher on `List Char`; the patterns involved use only literal
text and character classes, so greedy matching is deterministic and the
matchers are faithful.
-/

namespace DocsPipeline

/-- The backtick character (written by code point to keep the source free
of stray delimiter characters). -/
def bt : Char := Char.ofNat 96

/-- Left curly brace. -/
def lbrace : Char := Char.ofNat 123

/-- Right curly brace. -/
def rbrace : Char := Char.ofNat 125

/-- Python `str.strip` whitespace (ASCII subset: space, tab, newline,
carriage return, vertical tab, form feed). -/
def pyWs (c : Char) : Bool :=
  c = ' ' ∨ c = '\t' ∨ c = '\n' ∨ c = '\r' ∨ c = '\x0b' ∨ c = '\x0c'

/-- Python `str.strip`: drop whitespace from both ends. -/
def stripList (l : List Char) : List Char :=
  ((l.dropWhile pyWs).reverse.dropWhile pyWs).reverse

/-- Python `str.lstrip`. -/
def lstripList (l : List Char) : List Char :=
  l.dropWhile pyWs

/-- `l.strip() == ""`: every character is whitespace. -/
def allWs (l : List Char) : Bool :=
  l.all pyWs

/-- Python `s.startswith(pat)` (recursion is on the pattern, so that
the test evaluates even on partially symbolic documents). -/
def startsWithL : List Char → List Char → Bool
  | [], _ => true
  | a :: as, s =>
    match s with
    | [] => false
    | b :: bs => a == b && startsWithL as bs

/-- Python `s.endswith(pat)`. -/
def endsWithL (pat s : List Char) : Bool :=
  startsWithL pat.reverse s.reverse

/-- Split a character list at every occurrence of `sep`
(Python `str.split(sep)` for a one-character separator). -/
def splitOnChar (sep : Char) : List Char → List (List Char)
  | [] => [[]]
  | x :: xs =>
    match splitOnChar sep xs with
    | [] => [[]]
    | h :: t => if x = sep then [] :: h :: t else (x :: h) :: t

/-- Join lines with newlines (Python `"\n".join`). -/
def joinLines (ls : List (List Char)) : List Char :=
  List.intercalate ['\n'] ls

/-- Python `content.find(pat, j)` scanning the suffix `s = content.drop j`
whose first position is `pos = j`: smallest absolute index `≥ pos` at
which `pat` occurs, or `none`. -/
def strFindGo (pat : List Char) : List Char → Nat → Option Nat
  | [], pos => if startsWithL pat [] then some pos else none
  | c :: r, pos =>
    if startsWithL pat (c :: r) then some pos else strFindGo pat r (pos + 1)

/-- Python `content.find(pat, j)` (as an `Option` instead of `-1`). -/
def strFind (content pat : List Char) (j : Nat) : Option Nat :=
  strFindGo pat (content.drop j) j

/-- Python `any(start <= pos < end for start, end in ranges)`
(`in_ranges` in sync-wiki.py, `in_code_block` / `in_code_span` in
check-links.py). -/
def in_ranges (pos : Nat) (ranges : List (Nat × Nat)) : Bool :=
  ranges.any (fun r => r.1 ≤ pos ∧ pos < r.2)

/-- The characters of the line containing offset `i` that lie before `i`
(the Python idiom `content[content.rfind("\n", 0, i) + 1 : i]`),
returned reversed; only used through `allWs`, which ignores order. -/
def lineBeforeRev (content : List Char) (i : Nat) : List Char :=
  (content.take i).reverse.takeWhile (fun c => c ≠ '\n')

/-! ### check-links.py: `find_inline_code_ranges`

A character-by-character scan.  On a run of `n` backticks that is not a
line-leading fence marker, `content.find` looks for the next occurrence
of `n` consecutive backticks; if found a range is emitted and scanning
resumes after it, otherwise scanning resumes right after the run. -/

/-- One step of the `while i < n` loop of check-links.py
`find_inline_code_ranges`, with fuel (every iteration advances `i`). -/
def clScan (content : List Char) : Nat → Nat → List (Nat × Nat)
  | 0, _ => []
  | fuel + 1, i =>
    match content.drop i with
    | [] => []
    | c :: _ =>
      if c = bt then
        let cnt := ((content.drop i).takeWhile (fun x => x = bt)).length
        if 3 ≤ cnt ∧ allWs (lineBeforeRev content i) then
          clScan content fuel (i + cnt)
        else
          match strFind content (List.replicate cnt bt) (i + cnt) with
          | some e => (i, e + cnt) :: clScan content fuel (e + cnt)
          | none => clScan content fuel (i + cnt)
      else clScan content fuel (i + 1)

namespace CheckLinks

/-- check-links.py `find_inline_code_ranges`. -/
def find_inline_code_ranges (content : List Char) : List (Nat × Nat) :=
  clScan content (content.length + 1) 0

end CheckLinks

/-! ### `find_code_fence_ranges` (identical in check-links.py and
sync-wiki.py)

A line-by-line scan with state `(fence_start, fence_char, fence_len)`;
a line whose left-stripped form begins with three backticks or three
tildes toggles the state; an unclosed fence extends to the end of the
document. -/

/-- Fence-marker test for one line: the left-stripped line must begin
with three identical fence characters; returns the fence character and
the length of its leading run. -/
def fence_line_info (line : List Char) : Option (Char × Nat) :=
  let stripped := line.dropWhile pyWs
  if startsWithL [bt, bt, bt] stripped ∨ startsWithL ['~', '~', '~'] stripped then
    match stripped with
    | c :: _ => some (c, (stripped.takeWhile (fun x => x = c)).length)
    | [] => none
  else none

/-- The line loop of `find_code_fence_ranges`: `pos` is the offset of the
current line, `st` the open-fence state `(fence_start, fence_char,
fence_len)`, `total` the document length (used by the unclosed-fence
fallback). -/
def fenceGo : List (List Char) → Nat → Option (Nat × Char × Nat) → Nat → List (Nat × Nat)
  | [], _, some st, total => [(st.1, total)]
  | [], _, none, _ => []
  | line :: rest, pos, st, total =>
    match fence_line_info line with
    | some cn =>
      match st with
      | none => fenceGo rest (pos + line.length + 1) (some (pos, cn.1, cn.2)) total
      | some fs =>
        if cn.1 = fs.2.1 ∧ fs.2.2 ≤ cn.2 then
          (fs.1, pos + line.length) :: fenceGo rest (pos + line.length + 1) none total
        else
          fenceGo rest (pos + line.length + 1) (some fs) total
    | none => fenceGo rest (pos + line.length + 1) st total

/-- `find_code_fence_ranges`, shared verbatim by check-links.py and
sync-wiki.py. -/
def find_code_fence_ranges (content : List Char) : List (Nat × Nat) :=
  fenceGo (splitOnChar '\n' content) 0 none content.length

/-! ### sync-wiki.py: `find_inline_code_ranges`

A regex-based variant: all matches of the double-backtick pattern are
collected first, then all matches of the single-backtick pattern, each
appended only if its start does not fall inside an already-collected
range. -/

/-- Matcher for the regex `(double-backtick) [^ backtick newline ]*
(double-backtick)` anchored at the head of `s`; returns the match
length.  The character class cannot cross a backtick, so greedy
matching is deterministic. -/
def doubleBacktickMatch (s : List Char) : Option Nat :=
  match s with
  | c1 :: c2 :: rest =>
    if c1 = bt ∧ c2 = bt then
      let body := rest.takeWhile (fun c => c ≠ bt ∧ c ≠ '\n')
      match rest.drop body.length with
      | d1 :: d2 :: _ => if d1 = bt ∧ d2 = bt then some (2 + body.length + 2) else none
      | _ => none
    else none
  | _ => none

/-- Matcher for the regex `(backtick) [^ backtick newline ]* (backtick)`
anchored at the head of `s`. -/
def singleBacktickMatch (s : List Char) : Option Nat :=
  match s with
  | c1 :: rest =>
    if c1 = bt then
      let body := rest.takeWhile (fun c => c ≠ bt ∧ c ≠ '\n')
      match rest.drop body.length with
      | d1 :: _ => if d1 = bt then some (1 + body.length + 1) else none
      | _ => none
    else none
  | _ => none

/-- Python `pattern.finditer(content)`: leftmost matches, scanning
resumes after each match; `pos` is the absolute offset of `s` within
the document.  Fueled; every step consumes at least one character. -/
def findAllMatches (m : List Char → Option Nat) : Nat → List Char → Nat → List (Nat × Nat)
  | 0, _, _ => []
  | _ + 1, [], _ => []
  | fuel + 1, c :: rest, pos =>
    match m (c :: rest) with
    | some k => (pos, pos + k) :: findAllMatches m fuel (rest.drop (k - 1)) (pos + k)
    | none => findAllMatches m fuel rest (pos + 1)

/-- The appending loop of sync-wiki.py `find_inline_code_ranges`: a
match is kept only if its start is not inside a range already kept. -/
def addMatches (acc : List (Nat × Nat)) (ms : List (Nat × Nat)) : List (Nat × Nat) :=
  ms.foldl (fun a m => if in_ranges m.1 a then a else a ++ [m]) acc

namespace SyncWiki

/-- sync-wiki.py `find_inline_code_ranges` (regex-based variant). -/
def find_inline_code_ranges (content : List Char) : List (Nat × Nat) :=
  addMatches
    (addMatches [] (findAllMatches doubleBacktickMatch (content.length + 1) content 0))
    (findAllMatches singleBacktickMatch (content.length + 1) content 0)

end SyncWiki

/-! ### Link extraction (`extract_links`, identical regex in both
scripts): all matches of
`[ text without closing bracket ] ( href without closing paren )`. -/

/-- A matched markdown link: start offset, end offset, display text and
target (`LinkMatch` in the scripts; `full_match` is recoverable from
the other fields and is not stored). -/
structure LinkMatch where
  start : Nat
  stop : Nat
  text : List Char
  href : List Char
  deriving Repr, DecidableEq

/-- Matcher for the link regex anchored at the head of `s`: `[`, then
any characters other than `]` (possibly none), then `](`, then at least
one character other than `)`, then `)`.  Returns (length, text, href). -/
def linkMatch (s : List Char) : Option (Nat × List Char × List Char) :=
  match s with
  | '[' :: r =>
    let text := r.takeWhile (fun c => c ≠ ']')
    match r.drop text.length with
    | ']' :: '(' :: r2 =>
      let href := r2.takeWhile (fun c => c ≠ ')')
      if href = [] then none
      else
        match r2.drop href.length with
        | ')' :: _ => some (text.length + href.length + 4, text, href)
        | _ => none
    | _ => none
  | _ => none

/-- The `finditer` loop of `extract_links`. -/
def extractLinksGo : Nat → List Char → Nat → List LinkMatch
  | 0, _, _ => []
  | _ + 1, [], _ => []
  | fuel + 1, c :: rest, pos =>
    match linkMatch (c :: rest) with
    | some m =>
      ⟨pos, pos + m.1, m.2.1, m.2.2⟩ :: extractLinksGo fuel (rest.drop (m.1 - 1)) (pos + m.1)
    | none => extractLinksGo fuel rest (pos + 1)

/-- `extract_links` (sync-wiki.py; check-links.py uses the same regex
inline in `check_markdown_file`). -/
def extract_links (content : List Char) : List LinkMatch :=
  extractLinksGo (content.length + 1) content 0

/-- The link-counting core of check-links.py `check_markdown_file`: the
number of extracted links whose start offset lies neither in a fenced
code range nor in an inline code range (`checked` in the source). -/
def checked_link_count (content : List Char) : Nat :=
  ((extract_links content).filter (fun L =>
    ¬ in_ranges L.start (find_code_fence_ranges content) ∧
    ¬ in_ranges L.start (CheckLinks.find_inline_code_ranges content))).length

/-! ### Path helpers of sync-wiki.py

Paths are relative POSIX strings.  `PurePosixPath` semantics on such
strings: split at slashes, drop empty components and single dots
(`pureParts`); rendering an empty component list gives `"."`. -/

/-- The nonempty, non-dot components of a relative POSIX path
(`PurePosixPath(p).parts` for a relative `p`). -/
def pureParts (p : List Char) : List (List Char) :=
  (splitOnChar '/' p).filter (fun s => s ≠ [] ∧ s ≠ ['.'])

/-- Render a component list as a path string; the empty list renders as
`"."` (as `str(PurePosixPath())` does). -/
def joinParts (parts : List (List Char)) : List Char :=
  if parts = [] then ['.'] else List.intercalate ['/'] parts

/-- sync-wiki.py `normalize_path` (on the relative POSIX paths the
script passes it, normalization collapses empty and dot components). -/
def normalize_path (p : List Char) : List Char :=
  joinParts (pureParts p)

/-- sync-wiki.py `split_anchor`: split a href at the first `#`. -/
def split_anchor (href : List Char) : List Char × List Char :=
  let path := href.takeWhile (fun c => c ≠ '#')
  match href.drop path.length with
  | '#' :: rest => (path, rest)
  | _ => (href, [])

/-- Python `path.removesuffix(".md")`. -/
def remove_md_suffix (p : List Char) : List Char :=
  if endsWithL ['.', 'm', 'd'] p then p.dropLast.dropLast.dropLast else p

/-- sync-wiki.py `resolve_relative_path`: join the link onto the source
file's directory, collapse `..` segments, and return `none` if any
`..` would escape the documentation root. -/
def resolve_relative_path (source_file link : List Char) : Option (List Char) :=
  let resolvedParts := (pureParts source_file).dropLast ++ pureParts link
  let st := resolvedParts.foldl
    (fun (st : List (List Char) × Nat) part =>
      if part = ['.', '.'] then
        if st.1 ≠ [] then (st.1.dropLast, st.2) else (st.1, st.2 + 1)
      else (st.1 ++ [part], st.2))
    ([], 0)
  if st.2 > 0 then none else some (joinParts st.1)

/-- sync-wiki.py `compute_external_path`: resolve a root-escaping link
against `docs/<source dir>`, dropping `..` at the repository root, and
return the repository-relative path (or `none` if nothing remains). -/
def compute_external_path (source_file link_path : List Char) : Option (List Char) :=
  let targetParts :=
    (['d', 'o', 'c', 's'] :: (pureParts source_file).dropLast) ++ pureParts link_path
  let parts := targetParts.foldl
    (fun (acc : List (List Char)) part =>
      if part = ['.', '.'] then acc.dropLast else acc ++ [part])
    []
  if parts = [] then none else some (List.intercalate ['/'] parts)

/-- Python `str.capitalize`: first character uppercased, the rest
lowercased. -/
def pyCapitalize : List Char → List Char
  | [] => []
  | c :: rest => c.toUpper :: rest.map Char.toLower

/-- sync-wiki.py `path_to_wiki_name`: drop the `.md` extension, keep the
final path component, capitalize each hyphen-separated segment. -/
def path_to_wiki_name (path : List Char) : List Char :=
  let name := remove_md_suffix path
  let name := (pureParts name).getLastD []
  List.intercalate ['-'] ((splitOnChar '-' name).map pyCapitalize)

/-- The `WIKI_STRUCTURE` mapping of sync-wiki.py. -/
def WIKI_STRUCTURE : List (List Char × List Char) :=
  [("index.md".toList, "Home".toList),
   ("user-guide.md".toList, "User-Guide".toList),
   ("architecture.md".toList, "Architecture".toList),
   ("migration.md".toList, "Migration".toList),
   ("changelog.md".toList, "Changelog".toList),
   ("contributing.md".toList, "Contributing".toList),
   ("code-of-conduct.md".toList, "Code-of-Conduct".toList),
   ("fortress-vs-ggrs.md".toList, "Fortress-vs-GGRS".toList),
   ("ggrs-changelog-archive.md".toList, "GGRS-Changelog-Archive".toList),
   ("tlaplus-tooling-research.md".toList, "TLAplus-Tooling-Research".toList),
   ("specs/formal-spec.md".toList, "Formal-Specification".toList),
   ("specs/determinism-model.md".toList, "Determinism-Model".toList),
   ("specs/api-contracts.md".toList, "API-Contracts".toList),
   ("specs/spec-divergences.md".toList, "Spec-Divergences".toList),
   ("specs/README.md".toList, "Overview".toList)]

/-- The `ROOT_WIKI_NAMES` mapping of sync-wiki.py. -/
def ROOT_WIKI_NAMES : List (List Char × List Char) :=
  [("README".toList, "Home".toList),
   ("CHANGELOG".toList, "Changelog".toList),
   ("CONTRIBUTING".toList, "Contributing".toList),
   ("LICENSE".toList, "License".toList)]

/-- `GITHUB_BLOB_URL` of sync-wiki.py. -/
def GITHUB_BLOB_URL : List Char :=
  "https://github.com/wallstop/fortress-rollback/blob/main".toList

/-- Association-list lookup (Python dict access by key). -/
def tableLookup (table : List (List Char × List Char)) (key : List Char) :
    Option (List Char) :=
  (table.find? (fun e => e.1 = key)).map (fun e => e.2)

/-- Python `sub in s`: substring containment. -/
def containsSub (pat : List Char) : List Char → Bool
  | [] => startsWithL pat []
  | s@(_ :: rest) => startsWithL pat s ∨ containsSub pat rest

/-- The tuple of href starts that sync-wiki.py `convert_links` leaves
untouched (note: no `ftp:`). -/
def schemeSkip (href : List Char) : Bool :=
  startsWithL "http://".toList href ∨ startsWithL "https://".toList href ∨
  startsWithL ['#'] href ∨ startsWithL "mailto:".toList href ∨
  startsWithL "tel:".toList href

/-- Replace the span `[L.start, L.stop)` of `acc` by `repl`
(the Python `result[: start] + new_link + result[end :]`). -/
def spliceLink (acc : List Char) (L : LinkMatch) (repl : List Char) : List Char :=
  acc.take L.start ++ repl ++ acc.drop L.stop

/-- Build `[text](target)`. -/
def mkLink (text target : List Char) : List Char :=
  '[' :: text ++ ']' :: '(' :: target ++ [')']

/-- The body of the per-link loop of sync-wiki.py `convert_links`:
given the skip ranges, the source file and the naming table, process
one `LinkMatch` against the accumulated document. -/
def processLink (source_file : List Char) (wiki_structure : List (List Char × List Char))
    (skip_ranges : List (Nat × Nat)) (acc : List Char) (L : LinkMatch) : List Char :=
  if in_ranges L.start skip_ranges then acc
  else if schemeSkip L.href then acc
  else
    let pa := split_anchor L.href
    let link_path := pa.1
    let anchor := if pa.2 ≠ [] then '#' :: pa.2 else []
    if link_path = [] then acc
    else
      match resolve_relative_path (normalize_path source_file) link_path with
      | none =>
        match compute_external_path source_file link_path with
        | some external_path =>
          spliceLink acc L (mkLink L.text (GITHUB_BLOB_URL ++ '/' :: external_path ++ anchor))
        | none => acc
      | some resolved =>
        if ¬ endsWithL (".md".toList) link_path then
          if containsSub ("assets/".toList) resolved ∨ startsWithL "assets".toList resolved then
            spliceLink acc L
              (mkLink L.text ("assets/".toList ++ (pureParts resolved).getLastD []))
          else acc
        else
          let resolved_without_ext := remove_md_suffix resolved
          let resolved_without_ext :=
            if startsWithL "docs/".toList resolved_without_ext then
              resolved_without_ext.drop 5
            else resolved_without_ext
          let wiki_name :=
            match tableLookup wiki_structure (resolved_without_ext ++ ".md".toList) with
            | some w => w
            | none =>
              match tableLookup ROOT_WIKI_NAMES resolved_without_ext with
              | some w => w
              | none => path_to_wiki_name link_path
          spliceLink acc L (mkLink L.text (wiki_name ++ anchor))

/-- sync-wiki.py `convert_links`: compute skip ranges, extract links,
and process them in reverse document order. -/
def convert_links (content source_file : List Char)
    (wiki_structure : List (List Char × List Char)) : List Char :=
  let skip_ranges :=
    find_code_fence_ranges content ++ SyncWiki.find_inline_code_ranges content
  (extract_links content).reverse.foldl
    (processLink source_file wiki_structure skip_ranges) content

/-! ### sync-wiki.py: `convert_grid_cards_to_list` and
`_parse_grid_cards_content`

The document is scanned for a grid-cards opening tag; a depth counter
then finds the matching closing tag (or runs to the end of input, in
which case no closing-tag length is subtracted); the block content is
parsed into cards and serialized as one list line per card, with a
final newline appended unconditionally by the serializer. -/

/-- Matcher for the opening-tag regex
`<div \s+ class="grid cards" [^>]* markdown>` (IGNORECASE), anchored at
the head of `s`.  The literal `markdown>` contains the first `>` of any
match, so greedy matching of `[^>]*` is deterministic. -/
def gridOpenTail : List Char → Nat → Option Nat
  | [], _ => none
  | c :: rest, k =>
    if startsWithL ("markdown>".toList) ((c :: rest).map Char.toLower) then some (k + 9)
    else if c = '>' then none
    else gridOpenTail rest (k + 1)

/-- The opening-tag matcher for `convert_grid_cards_to_list`; returns
the match length. -/
def gridOpenMatch (s : List Char) : Option Nat :=
  if startsWithL ("<div".toList) (s.map Char.toLower) then
    let afterDiv := s.drop 4
    let ws := afterDiv.takeWhile pyWs
    if ws = [] then none
    else
      let afterWs := afterDiv.drop ws.length
      if startsWithL ("class=\"grid cards\"".toList) (afterWs.map Char.toLower) then
        match gridOpenTail (afterWs.drop 18) 0 with
        | some k => some (4 + ws.length + 18 + k)
        | none => none
      else none
  else none

/-- Matcher for `<div [^>]* >` (IGNORECASE), anchored: a nested opening
div consumes through the first following `>`. -/
def openDivMatch (s : List Char) : Option Nat :=
  if startsWithL ("<div".toList) (s.map Char.toLower) then
    let body := (s.drop 4).takeWhile (fun c => c ≠ '>')
    match (s.drop 4).drop body.length with
    | '>' :: _ => some (4 + body.length + 1)
    | _ => none
  else none

/-- Matcher for `</div \s* >` (IGNORECASE), anchored. -/
def closeDivMatch (s : List Char) : Option Nat :=
  if startsWithL ("</div".toList) (s.map Char.toLower) then
    let ws := (s.drop 5).takeWhile pyWs
    match (s.drop 5).drop ws.length with
    | '>' :: _ => some (5 + ws.length + 1)
    | _ => none
  else none

/-- The inner `while j < n and div_depth > 0` loop: returns the number
of characters consumed and the length of the matching closing tag
(`0` if the loop ran out of input with the div still open). -/
def scanDivGo : Nat → List Char → Nat → Nat × Nat
  | 0, _, _ => (0, 0)
  | _ + 1, [], _ => (0, 0)
  | fuel + 1, s@(_ :: rest), depth =>
    match openDivMatch s with
    | some k =>
      let r := scanDivGo fuel (s.drop k) (depth + 1)
      (k + r.1, r.2)
    | none =>
      match closeDivMatch s with
      | some k =>
        if depth = 1 then (k, k)
        else
          let r := scanDivGo fuel (s.drop k) (depth - 1)
          (k + r.1, r.2)
      | none =>
        let r := scanDivGo fuel rest depth
        (1 + r.1, r.2)

/-- Scan for the closing `</div>` of a grid block whose content starts
at the head of `s` (depth already 1). -/
def scanDiv (s : List Char) : Nat × Nat :=
  scanDivGo (s.length + 1) s 1

/-- An intermediate card record (`current_card` in the source). -/
structure Card where
  title : List Char
  description : List Char
  linkText : List Char
  linkUrl : List Char
  deriving Repr, DecidableEq

/-- Matcher for `(double-star) [^*]+ (double-star)` anchored at the head
of `s`; returns the captured group. -/
def starMatch (s : List Char) : Option (List Char) :=
  match s with
  | c1 :: c2 :: rest =>
    if c1 = '*' ∧ c2 = '*' then
      let run := rest.takeWhile (fun c => c ≠ '*')
      if run = [] then none
      else
        match rest.drop run.length with
        | d1 :: d2 :: _ => if d1 = '*' ∧ d2 = '*' then some run else none
        | _ => none
    else none
  | _ => none

/-- The rightmost position at which `starMatch` succeeds (the greedy
`.*` of the card-title regex commits to the last bold span). -/
def lastStar : List Char → Option (List Char)
  | [] => none
  | s@(_ :: rest) =>
    match lastStar rest with
    | some t => some t
    | none => starMatch s

/-- Matcher for the card-title regex `^- \s+ .* (double-star) ([^*]+)
(double-star)` applied to a stripped line; returns the captured title
(before stripping). -/
def cardTitleMatch (stripped : List Char) : Option (List Char) :=
  match stripped with
  | '-' :: c :: rest => if pyWs c then lastStar rest else none
  | _ => none

/-- Python `\w` (ASCII subset). -/
def isWordChar (c : Char) : Bool :=
  c.isAlphanum ∨ c = '_'

/-- Matcher for the card-link regex `^\[ : [\w-]+ : \s* ([^\]]+) \]
\( ([^)]+) \)` applied to a stripped line; returns the two captured
groups.  The first group is returned already stripped (the greedy
`\s*` donates at most its trailing whitespace to the group, which the
source immediately strips away, so stripping the whole non-bracket run
is equivalent). -/
def cardLinkMatch (stripped : List Char) : Option (List Char × List Char) :=
  match stripped with
  | '[' :: ':' :: rest =>
    let name := rest.takeWhile (fun c => isWordChar c ∨ c = '-')
    if name = [] then none
    else
      match rest.drop name.length with
      | ':' :: r2 =>
        let grp := r2.takeWhile (fun c => c ≠ ']')
        if grp = [] then none
        else
          match r2.drop grp.length with
          | ']' :: '(' :: r3 =>
            let url := r3.takeWhile (fun c => c ≠ ')')
            if url = [] then none
            else
              match r3.drop url.length with
              | ')' :: _ => some (stripList grp, stripList url)
              | _ => none
          | _ => none
      | _ => none
  | _ => none

/-- The line loop of `_parse_grid_cards_content`, carrying the optional
current card. -/
def parseCardsGo : List (List Char) → Option Card → List Card
  | [], cur => cur.toList
  | line :: rest, cur =>
    let stripped := stripList line
    match cardTitleMatch stripped with
    | some t =>
      cur.toList ++ parseCardsGo rest (some ⟨stripList t, [], [], []⟩)
    | none =>
      match cur with
      | none => parseCardsGo rest none
      | some c =>
        if stripped = ['-', '-', '-'] then parseCardsGo rest (some c)
        else
          match cardLinkMatch stripped with
          | some lu => parseCardsGo rest (some ⟨c.title, c.description, lu.1, lu.2⟩)
          | none =>
            if stripped ≠ [] ∧ stripped.headD ' ' ≠ '<' then
              parseCardsGo rest (some ⟨c.title,
                (if c.description = [] then stripped
                 else c.description ++ ' ' :: stripped), c.linkText, c.linkUrl⟩)
            else parseCardsGo rest (some c)

/-- Serialize one card as `- (bold title) (em-dash description)
(link)`, omitting empty segments. -/
def serializeCard (c : Card) : List Char :=
  ('-' :: ' ' :: '*' :: '*' :: c.title ++ ['*', '*']) ++
  (if c.description ≠ [] then ' ' :: '—' :: ' ' :: c.description else []) ++
  (if c.linkText ≠ [] ∧ c.linkUrl ≠ [] then
    ' ' :: '[' :: c.linkText ++ ']' :: '(' :: c.linkUrl ++ [')'] else [])

/-- sync-wiki.py `_parse_grid_cards_content`: parse the block content
into cards and render them one per line, with a trailing newline
appended unconditionally. -/
def parse_grid_cards_content (div_content : List Char) : List Char :=
  joinLines ((parseCardsGo (splitOnChar '\n' div_content) none).map serializeCard) ++ ['\n']

/-- The outer character loop of `convert_grid_cards_to_list`, fueled
(each step consumes at least one character). -/
def convertGridGo : Nat → List Char → List Char
  | 0, s => s
  | _ + 1, [] => []
  | fuel + 1, s@(c :: rest) =>
    match gridOpenMatch s with
    | some k =>
      let r := scanDiv (s.drop k)
      parse_grid_cards_content ((s.drop k).take (r.1 - r.2)) ++
        convertGridGo fuel (s.drop (k + r.1))
    | none => c :: convertGridGo fuel rest

/-- sync-wiki.py `convert_grid_cards_to_list`. -/
def convert_grid_cards_to_list (content : List Char) : List Char :=
  convertGridGo (content.length + 1) content

/-! ### sync-wiki.py: `dedent_mkdocs_tabs`

A tab marker line becomes a heading; following blank lines are
preserved (normalized to empty); the indented block after them is
dedented by one unit until a non-indented line or another marker. -/

/-- Matcher for the tab-marker regex `^=== "([^"]+)"$` (fully
anchored); returns the captured label. -/
def tabMarkerMatch (line : List Char) : Option (List Char) :=
  match line with
  | '=' :: '=' :: '=' :: ' ' :: '"' :: rest =>
    let label := rest.takeWhile (fun c => c ≠ '"')
    if label = [] then none
    else
      match rest.drop label.length with
      | ['"'] => some label
      | _ => none
  | _ => none

/-- The blank-line skipping loop after a tab marker: returns the
emitted lines (one empty line per blank input line) and the rest. -/
def tabSkipBlanks : List (List Char) → List (List Char) × List (List Char)
  | [] => ([], [])
  | line :: rest =>
    if allWs line then
      let r := tabSkipBlanks rest
      ([] :: r.1, r.2)
    else ([], line :: rest)

/-- The dedenting loop of `dedent_mkdocs_tabs`: stops at another tab
marker or non-indented content, preserves blank lines as empty lines,
and removes one indentation unit (four spaces or one tab) otherwise. -/
def tabDedentBody : List (List Char) → List (List Char) × List (List Char)
  | [] => ([], [])
  | line :: rest =>
    if (tabMarkerMatch line).isSome then ([], line :: rest)
    else if allWs line then
      let r := tabDedentBody rest
      ([] :: r.1, r.2)
    else if startsWithL ("    ".toList) line then
      let r := tabDedentBody rest
      (line.drop 4 :: r.1, r.2)
    else if line.headD ' ' = '\t' then
      let r := tabDedentBody rest
      (line.drop 1 :: r.1, r.2)
    else ([], line :: rest)

/-- The outer line loop of `dedent_mkdocs_tabs`, fueled by the number
of lines (each step consumes at least one line). -/
def dedentTabsGo : Nat → List (List Char) → List (List Char)
  | 0, ls => ls
  | _ + 1, [] => []
  | fuel + 1, line :: rest =>
    match tabMarkerMatch line with
    | some label =>
      let blanks := tabSkipBlanks rest
      let body := tabDedentBody blanks.2
      ('#' :: '#' :: '#' :: ' ' :: label) :: (blanks.1 ++ body.1 ++ dedentTabsGo fuel body.2)
    | none => line :: dedentTabsGo fuel rest

/-- sync-wiki.py `dedent_mkdocs_tabs`. -/
def dedent_mkdocs_tabs (content : List Char) : List Char :=
  let lines := splitOnChar '\n' content
  joinLines (dedentTabsGo (lines.length + 1) lines)

/-! ### sync-wiki.py: `convert_admonitions` -/

/-- Python `str.title` (ASCII subset): uppercase every letter that
follows a non-letter, lowercase the other letters. -/
def pyTitleGo : Bool → List Char → List Char
  | _, [] => []
  | prevAlpha, c :: rest =>
    (if c.isAlpha then (if prevAlpha then c.toLower else c.toUpper) else c) ::
      pyTitleGo c.isAlpha rest

/-- Python `str.title`. -/
def pyTitle (l : List Char) : List Char :=
  pyTitleGo false l

/-- Matcher for the admonition-marker regex
`^!!! (\w+)(?: "([^"]*)")?\s*$`; returns the kind and the optional
title group (which may be empty). -/
def admonMarkerMatch (line : List Char) : Option (List Char × Option (List Char)) :=
  match line with
  | '!' :: '!' :: '!' :: ' ' :: rest =>
    let kind := rest.takeWhile isWordChar
    if kind = [] then none
    else
      match rest.drop kind.length with
      | ' ' :: '"' :: r2 =>
        let title := r2.takeWhile (fun c => c ≠ '"')
        match r2.drop title.length with
        | '"' :: r3 => if allWs r3 then some (kind, some title) else none
        | _ => none
      | r1 => if allWs r1 then some (kind, none) else none
  | _ => none

/-- The indented-content loop of `convert_admonitions`: blank lines
become a bare quote mark, indented lines are quoted and dedented, a
non-indented line ends the block. -/
def admonBody : List (List Char) → List (List Char) × List (List Char)
  | [] => ([], [])
  | line :: rest =>
    if allWs line then
      let r := admonBody rest
      (['>'] :: r.1, r.2)
    else if startsWithL ("    ".toList) line then
      let r := admonBody rest
      (('>' :: ' ' :: line.drop 4) :: r.1, r.2)
    else if line.headD ' ' = '\t' then
      let r := admonBody rest
      (('>' :: ' ' :: line.drop 1) :: r.1, r.2)
    else ([], line :: rest)

/-- The outer line loop of `convert_admonitions`, fueled by the number
of lines. -/
def admonGo : Nat → List (List Char) → List (List Char)
  | 0, ls => ls
  | _ + 1, [] => []
  | fuel + 1, line :: rest =>
    match admonMarkerMatch line with
    | some km =>
      let title :=
        match km.2 with
        | some t => if t = [] then pyTitle km.1 else t
        | none => pyTitle km.1
      let body := admonBody rest
      ('>' :: ' ' :: '*' :: '*' :: title ++ ['*', '*']) :: ['>'] ::
        (body.1 ++ admonGo fuel body.2)
    | none => line :: admonGo fuel rest

/-- sync-wiki.py `convert_admonitions`. -/
def convert_admonitions (content : List Char) : List Char :=
  let lines := splitOnChar '\n' content
  joinLines (admonGo (lines.length + 1) lines)

/-! ### sync-wiki.py: icon and attribute stripping -/

/-- Matcher for one icon pattern `(pfx)[a-z0-9-]+:\s*` anchored at the
head of `s` (`pfx` is a literal such as `:material-`, hyphen
included); returns the match length. -/
def iconMatch (pfx : List Char) (s : List Char) : Option Nat :=
  if startsWithL pfx s then
    let rest := s.drop pfx.length
    let name := rest.takeWhile (fun c => ('a' ≤ c ∧ c ≤ 'z') ∨ c.isDigit ∨ c = '-')
    if name = [] then none
    else
      match rest.drop name.length with
      | ':' :: r2 => some (pfx.length + name.length + 1 + (r2.takeWhile pyWs).length)
      | _ => none
  else none

/-- Python `re.sub(pattern, "", content)` for a matcher that always
consumes at least one character; fueled. -/
def regexSubGo (m : List Char → Option Nat) : Nat → List Char → List Char
  | 0, s => s
  | _ + 1, [] => []
  | fuel + 1, c :: rest =>
    match m (c :: rest) with
    | some k => regexSubGo m fuel (rest.drop (k - 1))
    | none => c :: regexSubGo m fuel rest

/-- `re.sub(pattern, "", content)`. -/
def regexSub (m : List Char → Option Nat) (content : List Char) : List Char :=
  regexSubGo m (content.length + 1) content

/-- sync-wiki.py `strip_mkdocs_icons`: three successive substitutions
for the `:material-`, `:octicons-` and `:fontawesome-` icon families,
each also consuming trailing whitespace. -/
def strip_mkdocs_icons (content : List Char) : List Char :=
  regexSub (iconMatch ":fontawesome-".toList)
    (regexSub (iconMatch ":octicons-".toList)
      (regexSub (iconMatch ":material-".toList) content))

/-- Matcher for the attribute regex `\{ \s* [.#] [^ rbrace ]* \}`
anchored at the head of `s`; returns the match length. -/
def attrMatch (s : List Char) : Option Nat :=
  match s with
  | c :: rest =>
    if c = lbrace then
      let ws := rest.takeWhile pyWs
      match rest.drop ws.length with
      | d :: r2 =>
        if d = '.' ∨ d = '#' then
          let body := r2.takeWhile (fun x => x ≠ rbrace)
          match r2.drop body.length with
          | e :: _ => if e = rbrace then some (1 + ws.length + 1 + body.length + 1) else none
          | _ => none
        else none
      | _ => none
    else none
  | _ => none

/-- sync-wiki.py `strip_mkdocs_attributes`. -/
def strip_mkdocs_attributes (content : List Char) : List Char :=
  regexSub attrMatch content

/-! ### sync-wiki.py: `transform_outside_code_blocks` -/

/-- Stable insertion into a list sorted by range start (used to model
Python's stable `sorted(..., key=start)`): the new element goes after
all elements with a smaller or equal start. -/
def insertByStart (r : Nat × Nat) : List (Nat × Nat) → List (Nat × Nat)
  | [] => [r]
  | x :: xs => if x.1 ≤ r.1 then x :: insertByStart r xs else r :: x :: xs

/-- Python `sorted(ranges, key=start)` (stable). -/
def sortByStart (rs : List (Nat × Nat)) : List (Nat × Nat) :=
  rs.foldl (fun acc r => insertByStart r acc) []

/-- The merge loop of `transform_outside_code_blocks`: a range whose
start is at or before the end of the last merged range extends it. -/
def mergeRanges (rs : List (Nat × Nat)) : List (Nat × Nat) :=
  rs.foldl
    (fun acc r =>
      match acc.getLast? with
      | some l =>
        if r.1 ≤ l.2 then acc.dropLast ++ [(l.1, max l.2 r.2)] else acc ++ [r]
      | none => [r])
    []

/-- Python `content[a:b]`. -/
def slice (content : List Char) (a b : Nat) : List Char :=
  (content.drop a).take (b - a)

/-- The stitching loop of `transform_outside_code_blocks`: transform
the gaps, keep the merged code ranges verbatim. -/
def stitchRanges (f : List Char → List Char) (content : List Char) :
    Nat → List (Nat × Nat) → List Char
  | lastEnd, [] =>
    if lastEnd < content.length then f (content.drop lastEnd) else []
  | lastEnd, r :: rest =>
    (if lastEnd < r.1 then f (slice content lastEnd r.1) else []) ++
      slice content r.1 r.2 ++ stitchRanges f content r.2 rest

/-- sync-wiki.py `transform_outside_code_blocks`. -/
def transform_outside_code_blocks (content : List Char) (f : List Char → List Char) :
    List Char :=
  let all := sortByStart (find_code_fence_ranges content ++ SyncWiki.find_inline_code_ranges content)
  stitchRanges f content 0 (mergeRanges all)

/-- sync-wiki.py `strip_mkdocs_features`: tabs, then admonitions, then
grid cards, then icon and attribute stripping outside code ranges. -/
def strip_mkdocs_features (content : List Char) : List Char :=
  let content := dedent_mkdocs_tabs content
  let content := convert_admonitions content
  let content := convert_grid_cards_to_list content
  let content := transform_outside_code_blocks content strip_mkdocs_icons
  transform_outside_code_blocks content strip_mkdocs_attributes

/-! ### check-wiki-consistency.py: wiki-link display-text validation -/

/-- A parsed wiki-style link: page name, display text, line number
(`parse_wiki_links_from_string` output). -/
structure WikiLink where
  page : List Char
  display : List Char
  line : Nat
  deriving Repr, DecidableEq

/-- Matcher for the wiki-link regex
`\[\[ ([^ bracket-or-bar ]+) (?: \| ([^ bracket ]+) )? \]\]` anchored at
the head of `s`; returns (length, page group, optional display group). -/
def wikiLinkMatch (s : List Char) : Option (Nat × List Char × Option (List Char)) :=
  match s with
  | '[' :: '[' :: rest =>
    let page := rest.takeWhile (fun c => c ≠ ']' ∧ c ≠ '|')
    if page = [] then none
    else
      match rest.drop page.length with
      | ']' :: ']' :: _ => some (page.length + 4, page, none)
      | '|' :: r2 =>
        let disp := r2.takeWhile (fun c => c ≠ ']')
        if disp = [] then none
        else
          match r2.drop disp.length with
          | ']' :: ']' :: _ => some (page.length + disp.length + 5, page, some disp)
          | _ => none
      | _ => none
  | _ => none

/-- The per-line `finditer` loop for wiki links, fueled. -/
def wikiLinksInLine : Nat → List Char → Nat → List (List Char × Option (List Char))
  | 0, _, _ => []
  | _ + 1, [], _ => []
  | fuel + 1, c :: rest, ln =>
    match wikiLinkMatch (c :: rest) with
    | some m =>
      (m.2.1, m.2.2) :: wikiLinksInLine fuel (rest.drop (m.1 - 1)) ln
    | none => wikiLinksInLine fuel rest ln

/-- check-wiki-consistency.py `parse_wiki_links_from_string`
(`splitlines` is modelled as splitting at newlines; a trailing empty
line yields no links). -/
def parse_wiki_links_from_string (content : List Char) : List WikiLink :=
  ((splitOnChar '\n' content).enumFrom 1).flatMap
    (fun le =>
      (wikiLinksInLine (le.2.length + 1) le.2 le.1).map
        (fun m =>
          let page := stripList m.1
          ⟨page, match m.2 with | some d => stripList d | none => page, le.1⟩))

/-- `WIKI_LINK_PROBLEMATIC_CHARS` of check-wiki-consistency.py, in dict
insertion order. -/
def WIKI_LINK_PROBLEMATIC_CHARS : List Char :=
  ['+', '%', '#', '?', '&', '=']

/-- The per-link loop body of `validate_wiki_link_display_text`: the
first problematic character found in the display text (the loop breaks
after reporting it). -/
def firstProblemChar (display : List Char) : Option Char :=
  WIKI_LINK_PROBLEMATIC_CHARS.find? (fun c => display.contains c)

/-- The error count of `validate_wiki_link_display_text` on parsed
content (file access is not modelled; the function folds over the
parsed links, adding one error per link whose display text contains a
problematic character). -/
def validate_wiki_link_display_text (content : List Char) : Nat :=
  (parse_wiki_links_from_string content).foldl
    (fun errs l => match firstProblemChar l.display with
      | some _ => errs + 1
      | none => errs) 0

/-! ### Ordering invariant for range lists -/

/-- Sum of line lengths plus one newline per line (the relation between
the line decomposition and the document length). -/
def linesLen (ls : List (List Char)) : Nat :=
  (ls.map (fun l => l.length + 1)).sum

/-- The lower bound maintained by the fence scan: the open fence start
if a fence is open, the current position otherwise. -/
def fenceBound (pos : Nat) : Option (Nat × Char × Nat) → Nat
  | none => pos
  | some fs => fs.1

/-- `Chained b rs`: the ranges in `rs` are nonempty, in increasing
order, pairwise disjoint, and all start at or after `b`. -/
def Chained : Nat → List (Nat × Nat) → Prop
  | _, [] => True
  | b, r :: rest => b ≤ r.1 ∧ r.1 < r.2 ∧ Chained r.2 rest

/-- The property claimed for range-scanner output: pairwise disjoint
half-open intervals, nonempty, listed with strictly increasing starts. -/
def RangesOk (rs : List (Nat × Nat)) : Prop :=
  rs.Pairwise (fun a b => a.2 ≤ b.1 ∧ a.1 < b.1) ∧ ∀ r ∈ rs, r.1 < r.2

/-! ### Concrete documents used in the theorems -/

/-- The dedicated-test input for exact closing-run matching
(`test_exact_backtick_count_not_prefix` in
scripts/tests/test_check_links.py). -/
def exC1 : List Char := "``code ``` more text``".toList

/-- The dedicated-test input for an opener with only longer runs
available (`test_no_closing_due_to_length_mismatch`). -/
def exC3 : List Char := "``code ```".toList

/-- The unclosed-opener regression document. -/
def exRegr : List Char := "`unclosed then [link](url)".toList

/-- A document on which the regex-based inline scanner emits
out-of-order, overlapping ranges. -/
def exC4 : List Char := "` ``x``".toList

/-- A grid-cards opening tag. -/
def gridOpenTagEx : List Char := "<div class=\"grid cards\" markdown>".toList

/-- Trailing prose after an unclosed grid-cards opening tag. -/
def proseTail : List Char := "hello".toList

/-- An empty grid-cards block. -/
def exC7 : List Char := "<div class=\"grid cards\" markdown></div>".toList

/-- An empty grid-cards block with surrounding prose
(`test_empty_grid_cards_surrounded_by_content`). -/
def exC7s : List Char := "Before\n<div class=\"grid cards\" markdown></div>\nAfter".toList

/-- The output of the grid converter on `exC7s` (one extra blank line). -/
def outC7s : List Char := "Before\n\n\nAfter".toList

/-- A tab block with a nested, more deeply indented tab marker. -/
def exC8 : List Char := "=== \"A\"\n\n    === \"B\"".toList

/-- One pass of the pipeline over `exC8`. -/
def exC8once : List Char := "### A\n\n=== \"B\"".toList

/-- Two passes of the pipeline over `exC8`. -/
def exC8twice : List Char := "### A\n\n### B".toList

/-- Source file used for root-level link rewriting. -/
def srcRoot : List Char := "index.md".toList

def exC5a : List Char := "[Guide](user-guide.md)".toList
def outC5a : List Char := "[Guide](User-Guide)".toList
def exC5b : List Char := "[API](architecture.md#setup)".toList
def outC5b : List Char := "[API](Architecture#setup)".toList
def exC5c : List Char := "[X](https://example.com)".toList

def exC6 : List Char := "[x](ftp://h/a.md)".toList
def outC6 : List Char := "[x](A)".toList

/-- A document all of whose links are scheme-skipped. -/
def exC6w : List Char := "[a](https://x) and [b](#sec)".toList

def exC10a : List Char := "[C](../CHANGELOG.md)".toList
def outC10a : List Char :=
  "[C](https://github.com/wallstop/fortress-rollback/blob/main/CHANGELOG.md)".toList

/-- A root-escaping link for which `compute_external_path` is empty. -/
def exC10b : List Char := "[X](../..)".toList

/-- A concrete root-escaping link match. -/
def exL10 : LinkMatch := ⟨0, 20, "C".toList, "../CHANGELOG.md".toList⟩

def exC9a : List Char := "[[Page|TLA+ Tools]]".toList
def exC9b : List Char := "[[Page|Safe Text]]".toList

/-- A wiki link whose display text has several problematic characters. -/
def exC9c : List Char := "[[Page|a+b%c=d]]".toList

/-! ### Helper lemmas -/

theorem startsWithL_length {pat s : List Char} (h : startsWithL pat s = true) :
    pat.length ≤ s.length := by
  induction pat generalizing s with
  | nil => simp
  | cons a as ih =>
    cases s with
    | nil => simp [startsWithL] at h
    | cons b bs =>
      simp only [startsWithL, Bool.and_eq_true] at h
      simpa [List.length_cons, Nat.succ_le_succ_iff] using ih h.2

theorem strFindGo_ge (pat : List Char) :
    ∀ s pos e, strFindGo pat s pos = some e → pos ≤ e := by
  intro s
  induction s with
  | nil =>
    intro pos e h
    simp only [strFindGo] at h
    split at h
    · cases h; exact le_refl _
    · cases h
  | cons c r ih =>
    intro pos e h
    simp only [strFindGo] at h
    split at h
    · cases h; exact le_refl _
    · exact le_trans (Nat.le_succ pos) (ih (pos + 1) e h)

theorem strFind_ge {content pat : List Char} {j e : Nat}
    (h : strFind content pat j = some e) : j ≤ e :=
  strFindGo_ge pat (content.drop j) j e h

theorem chained_mono {b b' : Nat} {rs : List (Nat × Nat)} (h : b' ≤ b)
    (hc : Chained b rs) : Chained b' rs := by
  cases rs with
  | nil => trivial
  | cons r rest =>
    obtain ⟨h1, h2, h3⟩ := hc
    exact ⟨le_trans h h1, h2, h3⟩

theorem chained_le {b : Nat} {rs : List (Nat × Nat)} (hc : Chained b rs) :
    ∀ r ∈ rs, b ≤ r.1 := by
  induction rs generalizing b with
  | nil => intro r hr; cases hr
  | cons x rest ih =>
    obtain ⟨h1, h2, h3⟩ := hc
    intro r hr
    cases hr with
    | head => exact h1
    | tail _ hm =>
      exact le_trans (le_trans h1 (le_of_lt h2)) (ih h3 r hm)

theorem chained_rangesOk {b : Nat} {rs : List (Nat × Nat)}
    (hc : Chained b rs) : RangesOk rs := by
  induction rs generalizing b with
  | nil => exact ⟨List.Pairwise.nil, by intro r hr; cases hr⟩
  | cons x rest ih =>
    obtain ⟨h1, h2, h3⟩ := hc
    obtain ⟨hp, hne⟩ := ih h3
    refine ⟨List.Pairwise.cons ?_ hp, ?_⟩
    · intro r hr
      have hx := chained_le h3 r hr
      exact ⟨hx, lt_of_lt_of_le h2 hx⟩
    · intro r hr
      cases hr with
      | head => exact h2
      | tail _ hm => exact hne r hm

theorem clScan_chained (content : List Char) :
    ∀ fuel i, Chained i (clScan content fuel i) := by
  intro fuel
  induction fuel with
  | zero => intro i; exact trivial
  | succ fuel ih =>
    intro i
    cases hd : content.drop i with
    | nil => simp only [clScan, hd]; exact trivial
    | cons c rest =>
      simp only [clScan, hd]
      by_cases hbt : c = bt
      · rw [if_pos hbt]
        set cnt := (List.takeWhile (fun x => decide (x = bt)) (c :: rest)).length with hcntdef
        have hcnt : 1 ≤ cnt := by
          rw [hcntdef]
          simp [List.takeWhile_cons, hbt]
        by_cases hfence : 3 ≤ cnt ∧ allWs (lineBeforeRev content i) = true
        · rw [if_pos hfence]
          exact chained_mono (Nat.le_add_right i cnt) (ih (i + cnt))
        · rw [if_neg hfence]
          cases hf : strFind content (List.replicate cnt bt) (i + cnt) with
          | some e =>
            refine ⟨le_refl i, ?_, ih (e + cnt)⟩
            have he := strFind_ge hf
            omega
          | none => exact chained_mono (Nat.le_add_right i cnt) (ih (i + cnt))
      · rw [if_neg hbt]
        exact chained_mono (Nat.le_succ i) (ih (i + 1))

theorem linesLen_splitOnChar (content : List Char) :
    linesLen (splitOnChar '\n' content) = content.length + 1 := by
  induction content with
  | nil => rfl
  | cons x xs ih =>
    cases hs : splitOnChar '\n' xs with
    | nil => rw [hs] at ih; simp [linesLen] at ih
    | cons h t =>
      rw [hs] at ih
      simp only [splitOnChar, hs]
      by_cases hx : x = '\n'
      · rw [if_pos hx]
        simp only [linesLen, List.map_cons, List.sum_cons, List.length_cons,
          List.length_nil] at ih ⊢
        omega
      · rw [if_neg hx]
        simp only [linesLen, List.map_cons, List.sum_cons] at ih ⊢
        simp only [List.length_cons]
        omega

theorem fence_line_info_length {line : List Char} {cn : Char × Nat}
    (h : fence_line_info line = some cn) : 3 ≤ line.length := by
  simp only [fence_line_info] at h
  split at h
  · rename_i hpre
    have h3 : 3 ≤ (line.dropWhile pyWs).length := by
      cases hpre with
      | inl hb => simpa using startsWithL_length hb
      | inr ht => simpa using startsWithL_length ht
    calc 3 ≤ (line.dropWhile pyWs).length := h3
      _ ≤ line.length := (List.dropWhile_sublist pyWs).length_le
  · cases h

theorem fenceGo_chained :
    ∀ (lines : List (List Char)) (pos : Nat) (st : Option (Nat × Char × Nat)) (total : Nat),
    (∀ fs, st = some fs → fs.1 + 4 ≤ pos) →
    pos + linesLen lines = total + 1 →
    Chained (fenceBound pos st) (fenceGo lines pos st total) := by
  intro lines
  induction lines with
  | nil =>
    intro pos st total hst hlen
    cases st with
    | none => exact trivial
    | some fs =>
      have h4 := hst fs rfl
      simp only [linesLen, List.map_nil, List.sum_nil] at hlen
      exact ⟨le_refl _, by omega, trivial⟩
  | cons line rest ih =>
    intro pos st total hst hlen
    have hlen' : pos + line.length + 1 + linesLen rest = total + 1 := by
      simp only [linesLen, List.map_cons, List.sum_cons] at hlen ⊢
      omega
    cases hfi : fence_line_info line with
    | none =>
      cases st with
      | none =>
        simp only [fenceGo, hfi]
        have h := ih (pos + line.length + 1) none total (by intro fs he; cases he) hlen'
        simp only [fenceBound] at h ⊢
        exact chained_mono (by omega) h
      | some fs =>
        simp only [fenceGo, hfi]
        have h := ih (pos + line.length + 1) (some fs) total
          (by intro fs' he; cases he; have := hst fs rfl; omega) hlen'
        simpa [fenceBound] using h
    | some cn =>
      have h3 := fence_line_info_length hfi
      cases st with
      | none =>
        simp only [fenceGo, hfi]
        have h := ih (pos + line.length + 1) (some (pos, cn.1, cn.2)) total
          (by intro fs' he; cases he; simp only []; omega) hlen'
        simpa [fenceBound] using h
      | some fs =>
        simp only [fenceGo, hfi]
        by_cases hc : cn.1 = fs.2.1 ∧ fs.2.2 ≤ cn.2
        · rw [if_pos hc]
          have h4 := hst fs rfl
          have h := ih (pos + line.length + 1) none total (by intro fs' he; cases he) hlen'
          simp only [fenceBound] at h ⊢
          exact ⟨le_refl _, by omega, chained_mono (by omega) h⟩
        · rw [if_neg hc]
          have h := ih (pos + line.length + 1) (some fs) total
            (by intro fs' he; cases he; have := hst fs rfl; omega) hlen'
          simpa [fenceBound] using h

theorem find_code_fence_ranges_chained (content : List Char) :
    Chained 0 (find_code_fence_ranges content) := by
  have h := fenceGo_chained (splitOnChar '\n' content) 0 none content.length
    (by intro fs hf; cases hf) (by simpa using linesLen_splitOnChar content)
  simpa [fenceBound] using h

theorem scanDivGo_no_tags {t : List Char} (h : t.all (fun c => c.toLower ≠ '<') = true) :
    ∀ f, t.length < f → scanDivGo f t 1 = (t.length, 0) := by
  induction t with
  | nil =>
    intro f hf
    cases f with
    | zero => omega
    | succ f => rfl
  | cons c rest ih =>
    intro f hf
    cases f with
    | zero => omega
    | succ f =>
      simp only [List.all_cons, Bool.and_eq_true, decide_eq_true_eq] at h
      have hbe : ('<' == c.toLower) = false :=
        beq_eq_false_iff_ne.mpr (fun hh => h.1 hh.symm)
      have hopen : openDivMatch (c :: rest) = none := by
        simp [openDivMatch, startsWithL, hbe]
      have hclose : closeDivMatch (c :: rest) = none := by
        simp [closeDivMatch, startsWithL, hbe]
      simp only [scanDivGo, hopen, hclose]
      have hr := ih (by simpa using h.2) f (by simpa using Nat.lt_of_succ_lt_succ hf)
      simp [hr]
      omega

theorem gridOpenMatch_tag (t : List Char) :
    gridOpenMatch (gridOpenTagEx ++ t) = some 33 := rfl

theorem convertGridGo_open {s : List Char} {k fuel : Nat}
    (hm : gridOpenMatch s = some k) (hne : s ≠ []) :
    convertGridGo (fuel + 1) s =
      parse_grid_cards_content ((s.drop k).take ((scanDiv (s.drop k)).1 - (scanDiv (s.drop k)).2)) ++
        convertGridGo fuel (s.drop (k + (scanDiv (s.drop k)).1)) := by
  cases s with
  | nil => cases hne rfl
  | cons c rest => simp only [convertGridGo, hm]

theorem processLink_scheme_skipped (source_file : List Char)
    (ws : List (List Char × List Char)) (skips : List (Nat × Nat))
    (acc : List Char) (L : LinkMatch) (h : schemeSkip L.href = true) :
    processLink source_file ws skips acc L = acc := by
  simp [processLink, h]

theorem foldl_processLink_skipped (source_file : List Char)
    (ws : List (List Char × List Char)) (skips : List (Nat × Nat)) :
    ∀ (ls : List LinkMatch) (acc : List Char),
      (∀ L ∈ ls, schemeSkip L.href = true) →
      ls.foldl (processLink source_file ws skips) acc = acc := by
  intro ls
  induction ls with
  | nil => intro acc _; rfl
  | cons L rest ih =>
    intro acc hall
    rw [List.foldl_cons, processLink_scheme_skipped _ _ _ _ _ (hall L (by simp))]
    exact ih acc (fun L' hL' => hall L' (by simp [hL']))

theorem foldl_problem_count (ls : List WikiLink) :
    ∀ n, ls.foldl (fun errs l =>
        match firstProblemChar l.display with
        | some _ => errs + 1
        | none => errs) n =
      n + ((ls.filter (fun l =>
        WIKI_LINK_PROBLEMATIC_CHARS.any (fun c => l.display.contains c))).length) := by
  induction ls with
  | nil => intro n; simp
  | cons l rest ih =>
    intro n
    rw [List.foldl_cons]
    cases hf : firstProblemChar l.display with
    | some c =>
      have hany : (WIKI_LINK_PROBLEMATIC_CHARS.any (fun c => l.display.contains c)) = true :=
        List.any_eq_true.mpr ⟨c, List.mem_of_find?_eq_some hf, List.find?_some hf⟩
      simp only [hf]
      rw [ih]
      simp only [List.filter_cons, hany, if_true, List.length_cons]
      ring
    | none =>
      have hany : (WIKI_LINK_PROBLEMATIC_CHARS.any (fun c => l.display.contains c)) = false := by
        rw [List.any_eq_false]
        intro x hx
        exact (List.find?_eq_none.mp hf) x hx
      simp only [hf]
      rw [ih]
      simp only [List.filter_cons, hany]
      simp

/-! ### The claims -/

/-- Claim C1 (code bug).  The claim states that the inline-code scanner
closes an opening run of N backticks only at the next run of exactly N
consecutive backticks, so that in a document of the shape of `exC1`
(two-backtick opener, then a three-backtick run, then an exact
two-backtick run) the single span covers the whole text.  The code
instead closes the opener at the first two backticks of the
three-backtick run: on `exC1` both variants return ranges (0, 9) and
(9, 21), and the test-expected single range (0, 22) is absent.  The
repository's own dedicated tests assert the claimed behavior, so the
claim is right and the code is wrong. -/
theorem claim_C1_code_eval :
    CheckLinks.find_inline_code_ranges exC1 = [(0, 9), (9, 21)] ∧
    SyncWiki.find_inline_code_ranges exC1 = [(0, 9), (9, 21)] ∧
    (0, 22) ∉ CheckLinks.find_inline_code_ranges exC1 := by decide

/-- Claim C2, counterexample.  The claim states that no trailing content
after an unclosed grid-cards opening tag is dropped from the output;
but on an unclosed block whose tail is the prose `hello`, the converter
returns a bare newline and the prose does not survive. -/
theorem claim_C2_counterexample :
    convert_grid_cards_to_list (gridOpenTagEx ++ proseTail) = ['\n'] ∧
    containsSub proseTail (convert_grid_cards_to_list (gridOpenTagEx ++ proseTail)) = false := by
  decide

/-- Claim C2, amended.  An unclosed grid-cards block consumes the entire
remainder of the document with no closing-tag-length subtraction: for
every tail `t` free of tag characters, the output is exactly the card
rendering of the whole of `t`, so content survives only insofar as the
card parser keeps it. -/
theorem claim_C2_amended (t : List Char) (h : t.all (fun c => c.toLower ≠ '<') = true) :
    convert_grid_cards_to_list (gridOpenTagEx ++ t) = parse_grid_cards_content t := by
  have hlen : (gridOpenTagEx ++ t).length = 33 + t.length := by
    simp [List.length_append, show gridOpenTagEx.length = 33 from rfl]
  have hdrop : (gridOpenTagEx ++ t).drop 33 = t :=
    List.drop_left' (show gridOpenTagEx.length = 33 from rfl)
  have hscan : scanDiv t = (t.length, 0) :=
    scanDivGo_no_tags h (t.length + 1) (Nat.lt_succ_self _)
  rw [convert_grid_cards_to_list, hlen]
  rw [convertGridGo_open (gridOpenMatch_tag t) (by simp [gridOpenTagEx])]
  rw [hdrop, hscan]
  have hdrop2 : (gridOpenTagEx ++ t).drop (33 + t.length) = [] := by
    apply List.drop_eq_nil_of_le
    omega
  rw [hdrop2]
  have hfuel : 33 + t.length = (32 + t.length) + 1 := by omega
  rw [hfuel]
  simp only [convertGridGo]
  simp [List.take_length]

/-- Witness for `claim_C2_amended` at the concrete tail `hello`. -/
theorem claim_C2_amended_witness :
    (proseTail.all (fun c => c.toLower ≠ '<') = true) ∧
    convert_grid_cards_to_list (gridOpenTagEx ++ proseTail) = parse_grid_cards_content proseTail :=
  ⟨by decide, claim_C2_amended proseTail (by decide)⟩

/-- Claim C3 (code bug).  The claim states that a backtick run with no
later run of exactly equal length produces no range (and that an
unclosed opener never hides a later link).  On `exC3` (a two-backtick
opener whose only later run has length three) the code emits the range
(0, 9) even though the dedicated test asserts no range; the
link-detection half of the claim does hold: the regression document
yields no inline range and exactly one checked link. -/
theorem claim_C3_code_eval :
    CheckLinks.find_inline_code_ranges exC3 = [(0, 9)] ∧
    CheckLinks.find_inline_code_ranges exRegr = [] ∧
    checked_link_count exRegr = 1 := by decide

/-- Claim C4, counterexample.  The sync-wiki regex-based inline scanner
can return ranges that overlap and are not sorted by start: on `exC4`
the output is [(2, 7), (0, 3)]. -/
theorem claim_C4_counterexample :
    SyncWiki.find_inline_code_ranges exC4 = [(2, 7), (0, 3)] ∧
    ¬ RangesOk (SyncWiki.find_inline_code_ranges exC4) := by
  refine ⟨by decide, ?_⟩
  intro h
  obtain ⟨hp, _⟩ := h
  rw [show SyncWiki.find_inline_code_ranges exC4 = [(2, 7), (0, 3)] from by decide] at hp
  have := (List.pairwise_cons.mp hp).1 (0, 3) (by simp)
  omega

/-- Claim C4, amended.  For every input, `find_code_fence_ranges` and
the check-links `find_inline_code_ranges` return pairwise disjoint,
nonempty ranges in strictly increasing start order; the sync-wiki
regex-based variant does not share this invariant (see the
counterexample). -/
theorem claim_C4_amended (content : List Char) :
    RangesOk (find_code_fence_ranges content) ∧
    RangesOk (CheckLinks.find_inline_code_ranges content) :=
  ⟨chained_rangesOk (find_code_fence_ranges_chained content),
   chained_rangesOk (clScan_chained content (content.length + 1) 0)⟩

/-- Claim C5 (confirmed).  With the fixed naming table and a root-level
source document, `[Guide](user-guide.md)` rewrites to
`[Guide](User-Guide)`, `[API](architecture.md#setup)` rewrites to
`[API](Architecture#setup)` with the anchor preserved, and an
`https://` link is returned unchanged. -/
theorem claim_C5 :
    convert_links exC5a srcRoot WIKI_STRUCTURE = outC5a ∧
    convert_links exC5b srcRoot WIKI_STRUCTURE = outC5b ∧
    convert_links exC5c srcRoot WIKI_STRUCTURE = exC5c := by decide

/-- Claim C6, counterexample.  The claim lists `ftp:` among the schemes
`convert_links` leaves untouched, but the code's skip tuple has no
`ftp:` entry: the link `[x](ftp://h/a.md)` is rewritten to `[x](A)`. -/
theorem claim_C6_counterexample :
    convert_links exC6 srcRoot WIKI_STRUCTURE = outC6 ∧ outC6 ≠ exC6 ∧
    startsWithL ("ftp://".toList) ((extract_links exC6).headD ⟨0, 0, [], []⟩).href = true := by
  decide

/-- Claim C6, amended.  A link whose href starts with `http://`,
`https://`, `mailto:`, `tel:` or `#` (the code's actual skip tuple,
which does not include `ftp:`) is left unchanged by the per-link loop,
and a document all of whose links are of this kind is returned
verbatim. -/
theorem claim_C6_amended :
    (∀ (source_file : List Char) (ws : List (List Char × List Char))
       (skips : List (Nat × Nat)) (acc : List Char) (L : LinkMatch),
       schemeSkip L.href = true → processLink source_file ws skips acc L = acc) ∧
    (∀ (content source_file : List Char) (ws : List (List Char × List Char)),
       (∀ L ∈ extract_links content, schemeSkip L.href = true) →
       convert_links content source_file ws = content) := by
  constructor
  · intro sf ws skips acc L h
    exact processLink_scheme_skipped sf ws skips acc L h
  · intro content sf ws hall
    rw [convert_links]
    exact foldl_processLink_skipped _ _ _ _ content
      (fun L hL => hall L (List.mem_reverse.mp hL))

/-- Witness for `claim_C6_amended` on a document with one `https://`
link and one bare-anchor link. -/
theorem claim_C6_amended_witness :
    (∀ L ∈ extract_links exC6w, schemeSkip L.href = true) ∧
    convert_links exC6w srcRoot WIKI_STRUCTURE = exC6w :=
  ⟨by decide, claim_C6_amended.2 exC6w srcRoot WIKI_STRUCTURE (by decide)⟩

/-- Claim C7 (code bug).  The claim (and the dedicated tests) state that
an empty grid-cards block converts to the empty string with no stray
blank line; the serializer unconditionally appends a newline, so the
code returns a bare newline for the empty block and inserts an extra
blank line into surrounding content. -/
theorem claim_C7_code_eval :
    convert_grid_cards_to_list exC7 = ['\n'] ∧
    convert_grid_cards_to_list exC7 ≠ [] ∧
    convert_grid_cards_to_list exC7s = outC7s := by decide

/-- Claim C8, counterexample.  The block-converter pipeline is not
idempotent: on `exC8` a second pass changes the output of the first. -/
theorem claim_C8_counterexample :
    strip_mkdocs_features (strip_mkdocs_features exC8) ≠ strip_mkdocs_features exC8 := by
  decide

/-- Claim C8, amended.  A tab marker nested with one extra indentation
unit inside a tab block is dedented to a bare marker by the first pass
and emitted unconverted, so a tab marker remains after one pass and a
second pass converts it: the pipeline is not idempotent. -/
theorem claim_C8_amended :
    strip_mkdocs_features exC8 = exC8once ∧
    containsSub ("=== ".toList) exC8once = true ∧
    strip_mkdocs_features exC8once = exC8twice ∧
    exC8once ≠ exC8twice := by decide

/-- Claim C9 (confirmed).  The display-text validation reports exactly
one error per parsed wiki link whose display text contains at least one
of the URL-hostile characters, and zero errors otherwise: the error
count equals the number of offending links, `[[Page|TLA+ Tools]]`
yields one error, `[[Page|Safe Text]]` yields zero, and a link with
several hostile characters still yields exactly one. -/
theorem claim_C9 :
    (∀ content : List Char, validate_wiki_link_display_text content =
      ((parse_wiki_links_from_string content).filter (fun l =>
        WIKI_LINK_PROBLEMATIC_CHARS.any (fun c => l.display.contains c))).length) ∧
    validate_wiki_link_display_text exC9a = 1 ∧
    validate_wiki_link_display_text exC9b = 0 ∧
    validate_wiki_link_display_text exC9c = 1 := by
  refine ⟨?_, by decide, by decide, by decide⟩
  intro content
  rw [validate_wiki_link_display_text]
  simpa using foldl_problem_count (parse_wiki_links_from_string content) 0

/-- Claim C10 (confirmed).  For a link outside the skip ranges, with no
skipped scheme, a nonempty path, and a resolution that escapes the
documentation root, the per-link loop rewrites the link to the absolute
GitHub reference exactly when `compute_external_path` yields a path and
leaves it unchanged exactly when it yields none; concretely,
`[C](../CHANGELOG.md)` from the root is rewritten to the blob URL and
`[X](../..)` is left unchanged. -/
theorem claim_C10 :
    (∀ (source_file : List Char) (ws : List (List Char × List Char))
       (skips : List (Nat × Nat)) (acc : List Char) (L : LinkMatch),
       in_ranges L.start skips = false →
       schemeSkip L.href = false →
       (split_anchor L.href).1 ≠ [] →
       resolve_relative_path (normalize_path source_file) (split_anchor L.href).1 = none →
       processLink source_file ws skips acc L =
         match compute_external_path source_file (split_anchor L.href).1 with
         | some external_path =>
             spliceLink acc L (mkLink L.text (GITHUB_BLOB_URL ++ '/' :: external_path ++
               (if (split_anchor L.href).2 ≠ [] then '#' :: (split_anchor L.href).2 else [])))
         | none => acc) ∧
    convert_links exC10a srcRoot WIKI_STRUCTURE = outC10a ∧
    convert_links exC10b srcRoot WIKI_STRUCTURE = exC10b := by
  refine ⟨?_, by decide, by decide⟩
  intro sf ws skips acc L h1 h2 h3 h4
  simp only [processLink, h1, h2, h4]
  simp [h3]

/-- Witness for `claim_C10` at the concrete root-escaping link
`[C](../CHANGELOG.md)`. -/
theorem claim_C10_witness :
    in_ranges exL10.start [] = false ∧ schemeSkip exL10.href = false ∧
    (split_anchor exL10.href).1 ≠ [] ∧
    resolve_relative_path (normalize_path srcRoot) (split_anchor exL10.href).1 = none ∧
    processLink srcRoot WIKI_STRUCTURE [] exC10a exL10 =
      match compute_external_path srcRoot (split_anchor exL10.href).1 with
      | some external_path =>
          spliceLink exC10a exL10 (mkLink exL10.text (GITHUB_BLOB_URL ++ '/' :: external_path ++
            (if (split_anchor exL10.href).2 ≠ [] then '#' :: (split_anchor exL10.href).2 else [])))
      | none => exC10a :=
  ⟨by decide, by decide, by decide, by decide,
    claim_C10.1 srcRoot WIKI_STRUCTURE [] exC10a exL10 (by decide) (by decide) (by decide)
      (by decide)⟩

end DocsPipeline
